import Mathlib

/-!
Shallow embedding of `ipfx/x_to_nwb/hr_segments.py`.

Python floats that carry exact decimal parameter values are modelled as `ℚ`;
the IEEE value NaN (produced by `float('nan')` in `_applyDelta`) is modelled
by the extra constructor `FVal.nan`, with arithmetic propagating it as IEEE
does for the operations the source performs.  Exceptions raised by the Python
code are modelled with `Except`.  The transcendental chirp synthesis
(`scipy.signal.chirp`) is modelled over `ℝ`.
-/

/-- Model of a Python float value: either a rational number or NaN. -/
inductive FVal where
  | nan : FVal
  | num (q : ℚ) : FVal
deriving DecidableEq

/-- Addition on float values; any NaN operand gives NaN (IEEE semantics). -/
def FVal.add : FVal → FVal → FVal
  | .num a, .num b => .num (a + b)
  | _, _ => .nan

/-- Multiplication on float values; any NaN operand gives NaN.  (The source
only ever multiplies NaN by finite nonzero scale factors, where IEEE also
gives NaN.) -/
def FVal.mul : FVal → FVal → FVal
  | .num a, .num b => .num (a * b)
  | _, _ => .nan

/-- Division of a float value by a rational; NaN divided by anything is NaN. -/
def FVal.divQ : FVal → ℚ → FVal
  | .num a, b => .num (a / b)
  | .nan, _ => .nan

/-- Python `math.trunc` on an exact rational: rounding toward zero. -/
def ratTrunc (q : ℚ) : ℤ :=
  if q < 0 then -⌊-q⌋ else ⌊q⌋

/-- Python `math.trunc` applied to a float value: `math.trunc(float('nan'))`
raises `ValueError`. -/
def truncF : FVal → Except String ℤ
  | .num q => .ok (ratTrunc q)
  | .nan => .error "cannot convert float NaN to integer"

/-- Errors raised by the Python constructors: `ValueError(msg)` (the message
argument is abbreviated to the offending field, the source interpolates the
value into it), and `AttributeError` for access to an attribute that was
never assigned. -/
inductive PyError where
  | valueError (msg : String)
  | attributeError (attr : String)
deriving DecidableEq

/-- Model of `StimulationRecord` (only the field the segment code reads). -/
structure StimRec where
  SampleInterval : ℚ
deriving DecidableEq

/-- Model of `ChannelRecordStimulus` (only the fields the segment code reads). -/
structure ChannelRec where
  Square_PosAmpl : ℚ
  Square_NegAmpl : ℚ
  Square_Cycle : ℚ
  Square_DurFactor : ℚ
  Square_BaseIncr : ℚ
  Square_Kind : String
  Chirp_Amplitude : ℚ
  Chirp_StartFreq : ℚ
  Chirp_EndFreq : ℚ
  Chirp_Kind : String
  Holding : ℚ
deriving DecidableEq

/-- Model of `StimSegmentRecord` (only the fields the segment code reads). -/
structure SegmentRec where
  Class : String
  DurationIncMode : String
  DeltaTFactor : ℚ
  DeltaTIncrement : ℚ
  VoltageIncMode : String
  DeltaVFactor : ℚ
  DeltaVIncrement : ℚ
  Duration : ℚ
  VoltageSource : String
  Voltage : ℚ
deriving DecidableEq

/-- The `xDelta`/`yDelta` dictionaries built in `Segment.__init__`. -/
structure DeltaDict where
  mode : String
  factor : ℚ
  inc : ℚ
deriving DecidableEq

/-- `Segment._hasDelta`: delta mode is active iff
`factor != 1.0 or inc != 0.0`. -/
def hasDelta (d : DeltaDict) : Bool :=
  d.factor != 1 || d.inc != 0

/-- `Segment._applyDelta(deltaDict, val, sweepNo)`: inactive deltas return
`val` unchanged; mode `"Inc"` adds `inc * sweepNo`; mode `"LogInc"` returns
`float('nan')`; any other mode raises `ValueError`. -/
def applyDelta (d : DeltaDict) (val : FVal) (sweepNo : ℕ) : Except String FVal :=
  if ¬ hasDelta d then
    .ok val
  else if d.mode = "Inc" then
    .ok (val.add (.num (d.inc * sweepNo)))
  else if d.mode = "LogInc" then
    .ok .nan
  else
    .error ("Increment mode " ++ d.mode ++ " is not supported.")

/-- `Segment.applyAmplitudeScale`: `amplitude * self.amplitudeScale`. -/
def applyAmplitudeScale (amplitudeScale amplitude : ℚ) : ℚ :=
  amplitude * amplitudeScale

/--`Segment.applyAmplitudeScale` lifted to float values (used after stepping,
which may produce NaN). -/
def applyAmplitudeScaleF (amplitudeScale : ℚ) (amplitude : FVal) : FVal :=
  amplitude.mul (.num amplitudeScale)

/-- `Segment.doStepping(sweepNo)`: apply `_applyDelta` to the duration via
`xDelta` and the amplitude via `yDelta`, then scale the amplitude. -/
def doStepping (xd yd : DeltaDict) (amplitudeScale duration amplitude : ℚ)
    (sweepNo : ℕ) : Except String (FVal × FVal) := do
  let d ← applyDelta xd (.num duration) sweepNo
  let a ← applyDelta yd (.num amplitude) sweepNo
  .ok (d, applyAmplitudeScaleF amplitudeScale a)

/-- `Segment.calculateNumberOfPoints(duration)`:
`math.trunc(duration / self.sampleInterval)`. -/
def calculateNumberOfPoints (sampleInterval duration : ℚ) : ℤ :=
  ratTrunc (duration / sampleInterval)

/-- `Segment.calculateNumberOfPoints` on a possibly-NaN stepped duration
(`math.trunc` raises on NaN). -/
def calculateNumberOfPointsF (sampleInterval : ℚ) (duration : FVal) :
    Except String ℤ :=
  truncF (duration.divQ sampleInterval)

/-- Model of `SquareSegment` instance state after `__init__`. -/
structure SquareSeg where
  xDelta : DeltaDict
  yDelta : DeltaDict
  duration : ℚ
  sampleInterval : ℚ
  amplitudeScale : ℚ
  posAmp : ℚ
  negAmp : ℚ
  cycleDuration : ℚ
  durationFactor : ℚ
  baseIncr : ℚ
  kind : String
deriving DecidableEq

/-- Model of `ConstantSegment` instance state after `__init__`. -/
structure ConstantSeg where
  xDelta : DeltaDict
  yDelta : DeltaDict
  duration : ℚ
  sampleInterval : ℚ
  amplitudeScale : ℚ
  amplitude : ℚ
deriving DecidableEq

/-- Model of `RampSegment` instance state after `__init__`. -/
structure RampSeg where
  xDelta : DeltaDict
  yDelta : DeltaDict
  duration : ℚ
  sampleInterval : ℚ
  amplitudeScale : ℚ
  amplitude : ℚ
deriving DecidableEq

/-- Model of `ChirpSegment` instance state after `__init__`. -/
structure ChirpSeg where
  xDelta : DeltaDict
  yDelta : DeltaDict
  duration : ℚ
  sampleInterval : ℚ
  amplitudeScale : ℚ
  amplitude : ℚ
  startFreq : ℚ
  endFreq : ℚ
  kind : String
deriving DecidableEq

/-- The base-class field initialization shared by all variants
(`Segment.__init__`): builds `xDelta`, `yDelta`, copies duration and sample
interval, and fixes `amplitudeScale = 1e3`. -/
def mkXDelta (se : SegmentRec) : DeltaDict :=
  { mode := se.DurationIncMode, factor := se.DeltaTFactor, inc := se.DeltaTIncrement }

/-- The `yDelta` dictionary built by `Segment.__init__`. -/
def mkYDelta (se : SegmentRec) : DeltaDict :=
  { mode := se.VoltageIncMode, factor := se.DeltaVFactor, inc := se.DeltaVIncrement }

/-- `SquareSegment.__init__`: base init, field copies, then the validation
chain.  Note on the third check: the source line
`raise ValueError(f"Unsupported squareKind={self.squareKind}")` reads
`self.squareKind`, an attribute that was never assigned (the constructor
stores the value in `self.kind`), so evaluating the f-string raises
`AttributeError('squareKind')` before the `ValueError` is ever constructed. -/
def mkSquareSegment (st : StimRec) (ch : ChannelRec) (se : SegmentRec) :
    Except PyError SquareSeg :=
  let s : SquareSeg :=
    { xDelta := mkXDelta se
      yDelta := mkYDelta se
      duration := se.Duration
      sampleInterval := st.SampleInterval
      amplitudeScale := 1000
      posAmp := ch.Square_PosAmpl
      negAmp := ch.Square_NegAmpl
      cycleDuration := ch.Square_Cycle
      durationFactor := ch.Square_DurFactor
      baseIncr := ch.Square_BaseIncr
      kind := ch.Square_Kind }
  if s.baseIncr ≠ 0 then
    .error (.valueError "Unsupported baseIncr")
  else if s.durationFactor ≠ 0 then
    .error (.valueError "Unsupported durationFactor")
  else if s.kind ≠ "Common Frequency" then
    .error (.attributeError "squareKind")
  else if hasDelta s.xDelta || hasDelta s.yDelta then
    .error (.valueError "Delta modes are not supported.")
  else if ¬ (0 < s.cycleDuration) then
    .error (.valueError "Invalid cycle duration.")
  else
    .ok s

/-- The conjunction of the five `SquareSegment.__init__` validation checks. -/
def squareSegmentValid (s : SquareSeg) : Bool :=
  s.baseIncr == 0 && s.durationFactor == 0 && s.kind == "Common Frequency"
    && !(hasDelta s.xDelta) && !(hasDelta s.yDelta)
    && decide (0 < s.cycleDuration)

/-- `ConstantSegment.__init__`: base init plus voltage-source resolution. -/
def mkConstantSegment (st : StimRec) (ch : ChannelRec) (se : SegmentRec) :
    Except PyError ConstantSeg :=
  if se.VoltageSource = "Constant" then
    .ok { xDelta := mkXDelta se, yDelta := mkYDelta se, duration := se.Duration
          sampleInterval := st.SampleInterval, amplitudeScale := 1000
          amplitude := se.Voltage }
  else if se.VoltageSource = "Hold" then
    .ok { xDelta := mkXDelta se, yDelta := mkYDelta se, duration := se.Duration
          sampleInterval := st.SampleInterval, amplitudeScale := 1000
          amplitude := ch.Holding }
  else
    .error (.valueError "Unsupported voltage source")

/-- `RampSegment.__init__`: identical resolution to `ConstantSegment`. -/
def mkRampSegment (st : StimRec) (ch : ChannelRec) (se : SegmentRec) :
    Except PyError RampSeg :=
  if se.VoltageSource = "Constant" then
    .ok { xDelta := mkXDelta se, yDelta := mkYDelta se, duration := se.Duration
          sampleInterval := st.SampleInterval, amplitudeScale := 1000
          amplitude := se.Voltage }
  else if se.VoltageSource = "Hold" then
    .ok { xDelta := mkXDelta se, yDelta := mkYDelta se, duration := se.Duration
          sampleInterval := st.SampleInterval, amplitudeScale := 1000
          amplitude := ch.Holding }
  else
    .error (.valueError "Unsupported voltage source")

/-- `ChirpSegment.__init__`: base init, field copies, kind validation. -/
def mkChirpSegment (st : StimRec) (ch : ChannelRec) (se : SegmentRec) :
    Except PyError ChirpSeg :=
  let s : ChirpSeg :=
    { xDelta := mkXDelta se
      yDelta := mkYDelta se
      duration := se.Duration
      sampleInterval := st.SampleInterval
      amplitudeScale := 1000
      amplitude := ch.Chirp_Amplitude
      startFreq := ch.Chirp_StartFreq
      endFreq := ch.Chirp_EndFreq
      kind := ch.Chirp_Kind }
  if s.kind ≠ "Exponential" ∧ s.kind ≠ "Linear" then
    .error (.valueError "The chirp kind is not supported.")
  else
    .ok s

/-- `numPointsCycle = math.trunc(self.cycleDuration / self.sampleInterval)`,
taken as a natural number (`np.zeros` raises on a negative size, so only the
nonnegative case produces an array). -/
def squareCyclePoints (s : SquareSeg) : ℕ :=
  (ratTrunc (s.cycleDuration / s.sampleInterval)).toNat

/-- The one-cycle array built by `SquareSegment.createArray`:
`halfCycleLength = int(numPointsCycle/2)` samples of
`applyAmplitudeScale(posAmp)` followed by the remaining samples of
`applyAmplitudeScale(-posAmp)`. -/
def squareOneCycle (s : SquareSeg) : List ℚ :=
  let half := squareCyclePoints s / 2
  List.replicate half (applyAmplitudeScale s.amplitudeScale s.posAmp)
    ++ List.replicate (squareCyclePoints s - half)
        (applyAmplitudeScale s.amplitudeScale (-s.posAmp))

/-- `numCycles = math.ceil(self.duration / self.cycleDuration)`. -/
def squareNumCycles (s : SquareSeg) : ℤ :=
  ⌈s.duration / s.cycleDuration⌉

/-- `np.tile(oneCycle, numCycles)` (`np.tile` raises on a negative repeat
count, so only the nonnegative case produces an array). -/
def squareTiled (s : SquareSeg) : List ℚ :=
  (List.replicate (squareNumCycles s).toNat (squareOneCycle s)).flatten

/-- Length of the tiled array: `numCycles * numPointsCycle`. -/
def squareTiledLength (s : SquareSeg) : ℕ :=
  (squareNumCycles s).toNat * squareCyclePoints s

/-- In-place `numpy.ndarray.resize(n)` on an array that OWNS its data: keep
the first `n` elements and zero-fill any missing trailing elements.  (On an
array that does not own its data, `resize` raises instead whenever the size
changes; `squareCreateArray` models that guard.) -/
def listResize (l : List ℚ) (n : ℕ) : List ℚ :=
  l.take n ++ List.replicate (n - l.length) 0

/-- `SquareSegment.createArray(sweep)`: build one cycle, tile it `numCycles`
times, and resize in place to `numPoints` samples.  The sweep argument is
unused by the source body.  Error paths of the numpy calls, in program
order: `np.zeros([numPointsCycle])` raises on a negative size;
`np.tile(oneCycle, numCycles)` raises on a negative repeat count (inside
`repeat`); `segment.resize(numPoints)` raises on a negative new size; and
since `np.tile` returns an owning copy only when every repeat count is 1
(otherwise its final `reshape` returns a non-owning view), `resize` raises
`ValueError: cannot resize this array: it does not own its data` whenever
`numCycles != 1` and the total size changes.  Only when none of these fire
does the in-place resize truncate or zero-fill. -/
def squareCreateArray (s : SquareSeg) (sweep : ℕ) : Except String (List ℚ) :=
  if ratTrunc (s.cycleDuration / s.sampleInterval) < 0 then
    .error "negative dimensions are not allowed"
  else if squareNumCycles s < 0 then
    .error "negative dimensions are not allowed"
  else if calculateNumberOfPoints s.sampleInterval s.duration < 0 then
    .error "negative dimensions are not allowed"
  else if squareNumCycles s ≠ 1
      ∧ (calculateNumberOfPoints s.sampleInterval s.duration).toNat
          ≠ (squareTiled s).length then
    .error "cannot resize this array: it does not own its data"
  else
    .ok (listResize (squareTiled s)
      (calculateNumberOfPoints s.sampleInterval s.duration).toNat)

/-- `np.linspace(a, b, n)` over exact rationals: `n` evenly spaced samples
from `a` to `b` inclusive; one sample gives `[a]`, zero samples give `[]`. -/
def linspaceQ (a b : ℚ) (n : ℕ) : List ℚ :=
  if n = 0 then []
  else if n = 1 then [a]
  else (List.range n).map (fun i : ℕ => a + (b - a) * (i : ℚ) / ((n : ℚ) - 1))

/-- `np.linspace(a, stop, n)` when the stop value may be NaN: every produced
sample is NaN (the spacing `step = (stop - a)/(n-1)` is NaN and even the
first sample is computed as `0 * delta + a` with `delta = NaN`). -/
def linspaceF (a : ℚ) (b : FVal) (n : ℕ) : List FVal :=
  match b with
  | .num bq => (linspaceQ a bq n).map FVal.num
  | .nan => List.replicate n .nan

/-- `ConstantSegment.createArray(sweep)`: step duration and amplitude, then
`np.full((numPoints), amplitude)`; `np.full` raises on a negative size. -/
def constantCreateArray (s : ConstantSeg) (sweep : ℕ) :
    Except String (List FVal) := do
  let (d, a) ← doStepping s.xDelta s.yDelta s.amplitudeScale s.duration
    s.amplitude sweep
  let n ← calculateNumberOfPointsF s.sampleInterval d
  if n < 0 then
    .error "negative dimensions are not allowed"
  else
    .ok (List.replicate n.toNat a)

/-- `RampSegment.createArray(sweep)`: step duration and amplitude, then
`np.linspace(0.0, amplitude, numPoints)`; `np.linspace` raises on a
negative sample count. -/
def rampCreateArray (s : RampSeg) (sweep : ℕ) :
    Except String (List FVal) := do
  let (d, a) ← doStepping s.xDelta s.yDelta s.amplitudeScale s.duration
    s.amplitude sweep
  let n ← calculateNumberOfPointsF s.sampleInterval d
  if n < 0 then
    .error "Number of samples must be non-negative"
  else
    .ok (linspaceF 0 a n.toNat)

/-- Phase of `scipy.signal.chirp` with `method="linear"`:
`2*pi * (f0*t + 0.5 * ((f1 - f0)/t1) * t*t)`. -/
noncomputable def chirpPhaseLinear (f0 f1 t1 : ℝ) : ℝ → ℝ := fun t =>
  2 * Real.pi * (f0 * t + (f1 - f0) / t1 * t * t / 2)

/-- Phase of `scipy.signal.chirp` with `method="logarithmic"`: scipy
special-cases `f0 == f1` to a constant-frequency phase, and otherwise uses
`2*pi * (t1/log(f1/f0)) * f0 * ((f1/f0)**(t/t1) - 1)`; it raises a
`ValueError` beforehand unless `f0*f1 > 0`. -/
noncomputable def chirpPhaseLogarithmic (f0 f1 t1 : ℝ) : ℝ → ℝ := fun t =>
  if f0 = f1 then 2 * Real.pi * f0 * t
  else 2 * Real.pi * (t1 / Real.log (f1 / f0)) * f0 * ((f1 / f0) ^ (t / t1) - 1)

/-- The phase used by `ChirpSegment.createArray`: kind `"Exponential"` maps
to scipy method `"logarithmic"`, kind `"Linear"` to `"linear"`. -/
noncomputable def chirpPhase (kind : String) (f0 f1 t1 : ℝ) : ℝ → ℝ :=
  if kind = "Exponential" then chirpPhaseLogarithmic f0 f1 t1
  else chirpPhaseLinear f0 f1 t1

/-- The continuous waveform sampled by `ChirpSegment.createArray`:
`amplitude * cos(phase(t) + phi)` with `phi = -90` degrees. -/
noncomputable def chirpWaveform (kind : String) (f0 f1 t1 amplitude : ℝ) :
    ℝ → ℝ := fun t =>
  amplitude * Real.cos (chirpPhase kind f0 f1 t1 t + (-90) * Real.pi / 180)

/-- Instantaneous frequency of a waveform with the given phase function:
the derivative of the phase at `t`, divided by `2*pi`. -/
noncomputable def instantaneousFrequency (phase : ℝ → ℝ) (t : ℝ) : ℝ :=
  deriv phase t / (2 * Real.pi)

/-- A segment of any of the four supported variants. -/
inductive AnySeg where
  | square (s : SquareSeg)
  | const (s : ConstantSeg)
  | ramp (s : RampSeg)
  | chirp (s : ChirpSeg)
deriving DecidableEq

/-- `getSegmentClass(stimRec, channelRec, segmentRec)`: dispatch on the
segment record's `Class` tag. -/
def getSegmentClass (st : StimRec) (ch : ChannelRec) (se : SegmentRec) :
    Except PyError AnySeg :=
  if se.Class = "Squarewave" then
    (mkSquareSegment st ch se).map .square
  else if se.Class = "Constant" then
    (mkConstantSegment st ch se).map .const
  else if se.Class = "Ramp" then
    (mkRampSegment st ch se).map .ramp
  else if se.Class = "Chirpwave" then
    (mkChirpSegment st ch se).map .chirp
  else
    .error (.valueError "Unsupported stim segment class")

/-- Instance state after a call to `createArray(sweepNo)`, rebuilt field by
field from the state before the call: no `createArray` body (nor
`doStepping`, `_step`, `_applyDelta`, `calculateNumberOfPoints` or
`applyAmplitudeScale`, which they call) contains an attribute assignment, so
every field is carried over unchanged. -/
def createArrayStateAfter : AnySeg → ℕ → AnySeg
  | .square s, _ => .square
      { xDelta := s.xDelta, yDelta := s.yDelta, duration := s.duration
        sampleInterval := s.sampleInterval, amplitudeScale := s.amplitudeScale
        posAmp := s.posAmp, negAmp := s.negAmp
        cycleDuration := s.cycleDuration, durationFactor := s.durationFactor
        baseIncr := s.baseIncr, kind := s.kind }
  | .const s, _ => .const
      { xDelta := s.xDelta, yDelta := s.yDelta, duration := s.duration
        sampleInterval := s.sampleInterval, amplitudeScale := s.amplitudeScale
        amplitude := s.amplitude }
  | .ramp s, _ => .ramp
      { xDelta := s.xDelta, yDelta := s.yDelta, duration := s.duration
        sampleInterval := s.sampleInterval, amplitudeScale := s.amplitudeScale
        amplitude := s.amplitude }
  | .chirp s, _ => .chirp
      { xDelta := s.xDelta, yDelta := s.yDelta, duration := s.duration
        sampleInterval := s.sampleInterval, amplitudeScale := s.amplitudeScale
        amplitude := s.amplitude, startFreq := s.startFreq
        endFreq := s.endFreq, kind := s.kind }

/-- `ConstantSegment.createArray` in state-passing form: the produced array
together with the instance state after the call. -/
def constantCreateArrayS (s : ConstantSeg) (sweep : ℕ) :
    Except String (List FVal) × ConstantSeg :=
  (constantCreateArray s sweep,
    { xDelta := s.xDelta, yDelta := s.yDelta, duration := s.duration
      sampleInterval := s.sampleInterval, amplitudeScale := s.amplitudeScale
      amplitude := s.amplitude })

/-- An inactive delta dictionary (mode `"Inc"`, factor 1, increment 0). -/
def inactiveDelta : DeltaDict :=
  { mode := "Inc", factor := 1, inc := 0 }

/-- Truncation toward zero agrees with `⌊⌋` on nonnegative rationals. -/
theorem ratTrunc_of_nonneg (q : ℚ) (h : 0 ≤ q) : ratTrunc q = ⌊q⌋ := by
  unfold ratTrunc
  rw [if_neg (not_lt.mpr h)]

/-- Truncation of a natural-number value is that value. -/
theorem ratTrunc_natCast (k : ℕ) : ratTrunc (k : ℚ) = k := by
  rw [ratTrunc_of_nonneg _ (by positivity)]
  exact Int.floor_natCast k

/-- C4 (amended): for nonnegative durations and positive sample intervals the
sample count `math.trunc(duration / sampleInterval)` equals
`floor(duration / sampleInterval)`; for negative quotients the code
truncates toward zero instead of flooring. -/
theorem calculateNumberOfPoints_eq_floor (sampleInterval duration : ℚ)
    (hsi : 0 < sampleInterval) (hd : 0 ≤ duration) :
    calculateNumberOfPoints sampleInterval duration = ⌊duration / sampleInterval⌋ := by
  unfold calculateNumberOfPoints
  exact ratTrunc_of_nonneg _ (div_nonneg hd hsi.le)

/-- C4 witness: `duration = 0.0105 s` at `sampleInterval = 0.001 s` satisfies
the hypotheses and gives `floor(10.5) = 10` samples; `duration = 0.01 s`
gives exactly `10`. -/
theorem calculateNumberOfPoints_eq_floor_witness :
    ((0 : ℚ) < 1/1000 ∧ (0 : ℚ) ≤ 21/2000
      ∧ calculateNumberOfPoints (1/1000) (21/2000)
          = ⌊((21/2000 : ℚ) / (1/1000 : ℚ))⌋)
    ∧ calculateNumberOfPoints (1/1000) (21/2000) = 10
    ∧ calculateNumberOfPoints (1/1000) (1/100) = 10 :=
  ⟨⟨by norm_num, by norm_num,
    calculateNumberOfPoints_eq_floor (1/1000) (21/2000) (by norm_num) (by norm_num)⟩,
   by norm_num [calculateNumberOfPoints, ratTrunc],
   by norm_num [calculateNumberOfPoints, ratTrunc]⟩

/-- C4 counterexample: at `duration = -0.0015 s`, `sampleInterval = 0.001 s`
the code computes `math.trunc(-1.5) = -1`, but `floor(-1.5) = -2`, so the
sample count does not equal the floor of the quotient for every duration. -/
theorem calculateNumberOfPoints_ne_floor_cx :
    calculateNumberOfPoints (1/1000) (-(3/2000))
      ≠ ⌊((-(3/2000) : ℚ)) / ((1/1000 : ℚ))⌋ := by
  norm_num [calculateNumberOfPoints, ratTrunc]

/-- C3 (amended): an active stepping specification (factor different from 1
or increment different from 0) in mode `"LogInc"` yields NaN for every base
value and sweep index. -/
theorem applyDelta_logInc_nan (d : DeltaDict) (v : FVal) (sweepNo : ℕ)
    (hmode : d.mode = "LogInc") (hactive : d.factor ≠ 1 ∨ d.inc ≠ 0) :
    applyDelta d v sweepNo = .ok .nan := by
  have hd : hasDelta d = true := by
    unfold hasDelta
    rcases hactive with h | h <;> simp [h]
  unfold applyDelta
  rw [hmode]
  simp [hd]

/-- C3 witness: mode `"LogInc"`, factor 2, increment 0 is active, and
applying it to base value 5 at sweep 3 yields NaN. -/
theorem applyDelta_logInc_nan_witness :
    ((DeltaDict.mk "LogInc" 2 0).mode = "LogInc"
      ∧ ((DeltaDict.mk "LogInc" 2 0).factor ≠ 1 ∨ (DeltaDict.mk "LogInc" 2 0).inc ≠ 0))
    ∧ applyDelta (DeltaDict.mk "LogInc" 2 0) (.num 5) 3 = .ok .nan :=
  ⟨⟨rfl, Or.inl (by decide)⟩,
   applyDelta_logInc_nan (DeltaDict.mk "LogInc" 2 0) (.num 5) 3 rfl
     (Or.inl (by decide))⟩

/-- C3 counterexample: a specification in mode `"LogInc"` whose factor is 1
and whose increment is 0 is inactive, so `_applyDelta` returns the base
value 5 unchanged instead of NaN. -/
theorem applyDelta_logInc_inactive_cx :
    applyDelta (DeltaDict.mk "LogInc" 1 0) (.num 5) 0 = .ok (.num 5)
    ∧ FVal.num 5 ≠ FVal.nan :=
  ⟨by rfl, by decide⟩

/-- Stimulus record for the square-kind constructor bug input. -/
def sqBugStim : StimRec := ⟨1⟩

/-- Channel record whose `Square_Kind` is `"Staircase"` (any value other
than `"Common Frequency"`), with `Square_BaseIncr = 0` and
`Square_DurFactor = 0`. -/
def sqBugChannel : ChannelRec :=
  { Square_PosAmpl := 1, Square_NegAmpl := 1, Square_Cycle := 1
    Square_DurFactor := 0, Square_BaseIncr := 0, Square_Kind := "Staircase"
    Chirp_Amplitude := 0, Chirp_StartFreq := 0, Chirp_EndFreq := 0
    Chirp_Kind := "Linear", Holding := 0 }

/-- Segment record with inactive deltas for the square-kind bug input. -/
def sqBugSegment : SegmentRec :=
  { Class := "Squarewave", DurationIncMode := "Inc", DeltaTFactor := 1
    DeltaTIncrement := 0, VoltageIncMode := "Inc", DeltaVFactor := 1
    DeltaVIncrement := 0, Duration := 1, VoltageSource := "Constant"
    Voltage := 0 }

/-- C2: constructing a Square segment whose kind is not `"Common Frequency"`
(with `baseIncr = 0` and `durationFactor = 0`) fails, but with an
`AttributeError` for the unassigned attribute `squareKind` raised while
formatting the intended error message, not with the intended `ValueError`
describing the offending field. -/
theorem mkSquareSegment_badKind_attributeError :
    mkSquareSegment sqBugStim sqBugChannel sqBugSegment
      = .error (.attributeError "squareKind")
    ∧ ∀ msg, PyError.attributeError "squareKind" ≠ .valueError msg :=
  ⟨by rfl, fun _ => by simp⟩

/-- Resizing always produces exactly the requested number of elements. -/
theorem listResize_length (l : List ℚ) (n : ℕ) : (listResize l n).length = n := by
  simp only [listResize, List.length_append, List.length_take, List.length_replicate]
  omega

/-- The one-cycle array has `numPointsCycle` samples. -/
theorem squareOneCycle_length (s : SquareSeg) :
    (squareOneCycle s).length = squareCyclePoints s := by
  simp only [squareOneCycle, List.length_append, List.length_replicate]
  omega

/-- The tiled array has `numCycles * numPointsCycle` samples. -/
theorem squareTiled_length (s : SquareSeg) :
    (squareTiled s).length = squareTiledLength s := by
  simp only [squareTiled, squareTiledLength, List.length_flatten,
    List.map_replicate, List.sum_replicate, smul_eq_mul, squareOneCycle_length]

/-- The sample count of a valid Square segment is nonnegative for
nonnegative durations. -/
theorem squareNumPoints_nonneg (s : SquareSeg) (hsi : 0 < s.sampleInterval)
    (hd : 0 ≤ s.duration) :
    0 ≤ calculateNumberOfPoints s.sampleInterval s.duration := by
  unfold calculateNumberOfPoints
  rw [ratTrunc_of_nonneg _ (div_nonneg hd hsi.le)]
  exact Int.floor_nonneg.mpr (div_nonneg hd hsi.le)

/-- Cycle-duration positivity extracted from the validation conjunction. -/
theorem squareValid_cycle_pos (s : SquareSeg)
    (hvalid : squareSegmentValid s = true) : 0 < s.cycleDuration := by
  simp only [squareSegmentValid, Bool.and_eq_true, decide_eq_true_eq] at hvalid
  exact hvalid.2

/-- When `numCycles = 1` the single (owning) cycle already holds at least
`numPoints` samples: `ceil(duration/cycleDuration) = 1` forces
`duration ≤ cycleDuration`, hence
`trunc(duration/si) ≤ trunc(cycleDuration/si)`. -/
theorem squareNumCycles_eq_one_covers (s : SquareSeg)
    (hsi : 0 < s.sampleInterval) (hc : 0 < s.cycleDuration)
    (hd : 0 ≤ s.duration) (h1 : squareNumCycles s = 1) :
    (calculateNumberOfPoints s.sampleInterval s.duration).toNat
      ≤ (squareTiled s).length := by
  have hdc : s.duration ≤ s.cycleDuration := by
    have hle : s.duration / s.cycleDuration ≤ ((1 : ℤ) : ℚ) :=
      Int.ceil_le.mp (le_of_eq h1)
    have h1' : s.duration / s.cycleDuration ≤ 1 := by exact_mod_cast hle
    exact (div_le_one hc).mp h1'
  have hfloor : calculateNumberOfPoints s.sampleInterval s.duration
      ≤ ratTrunc (s.cycleDuration / s.sampleInterval) := by
    unfold calculateNumberOfPoints
    rw [ratTrunc_of_nonneg _ (div_nonneg hd hsi.le),
      ratTrunc_of_nonneg _ (div_nonneg hc.le hsi.le)]
    exact Int.floor_mono (by gcongr)
  have hlen : (squareTiled s).length
      = (ratTrunc (s.cycleDuration / s.sampleInterval)).toNat := by
    rw [squareTiled_length]
    unfold squareTiledLength squareCyclePoints
    rw [h1]
    simp
  rw [hlen]
  omega

/-- Shape of any array actually returned by `squareCreateArray`: it is the
resized tiled array, and either `numCycles = 1` (the tile was an owning
copy) or the resize changed no size. -/
theorem squareCreateArray_ok_eq (s : SquareSeg) (sweep : ℕ) (l : List ℚ)
    (hok : squareCreateArray s sweep = .ok l) :
    (squareNumCycles s = 1
      ∨ (calculateNumberOfPoints s.sampleInterval s.duration).toNat
          = (squareTiled s).length)
    ∧ l = listResize (squareTiled s)
        (calculateNumberOfPoints s.sampleInterval s.duration).toNat := by
  unfold squareCreateArray at hok
  split_ifs at hok with h1 h2 h3 h4
  all_goals simp at hok
  push_neg at h4
  exact ⟨by tauto, hok.symm⟩

/-- Square segment with `sampleInterval = 2`, `duration = 6` and
`cycleDuration = 3` (not a multiple of the sample interval): its tiled
array falls short of `numPoints`. -/
def sqShortTile : SquareSeg :=
  { xDelta := inactiveDelta, yDelta := inactiveDelta, duration := 6
    sampleInterval := 2, amplitudeScale := 1000, posAmp := 1, negAmp := 1
    cycleDuration := 3, durationFactor := 0, baseIncr := 0
    kind := "Common Frequency" }

/-- Square segment with `sampleInterval = 2`, `duration = 6` and
`cycleDuration = 4` (an exact multiple of the sample interval): the tiled
array holds 4 samples but 3 are requested, so the resize changes the size
of a non-owning view. -/
def sqCovered : SquareSeg :=
  { xDelta := inactiveDelta, yDelta := inactiveDelta, duration := 6
    sampleInterval := 2, amplitudeScale := 1000, posAmp := 1, negAmp := 1
    cycleDuration := 4, durationFactor := 0, baseIncr := 0
    kind := "Common Frequency" }

/-- Square segment with `sampleInterval = 1`, `duration = 3` and
`cycleDuration = 4`: `numCycles = 1`, so the tile is an owning copy and the
resize truncates the 4-sample cycle to 3 samples. -/
def sqTruncOk : SquareSeg :=
  { xDelta := inactiveDelta, yDelta := inactiveDelta, duration := 3
    sampleInterval := 1, amplitudeScale := 1000, posAmp := 1, negAmp := 1
    cycleDuration := 4, durationFactor := 0, baseIncr := 0
    kind := "Common Frequency" }

/-- Square segment with `sampleInterval = 1`, `duration = 4` and
`cycleDuration = 2`: two cycles tile to exactly `numPoints` samples, so the
resize changes no size and succeeds on the non-owning view. -/
def sqExact : SquareSeg :=
  { xDelta := inactiveDelta, yDelta := inactiveDelta, duration := 4
    sampleInterval := 1, amplitudeScale := 1000, posAmp := 1, negAmp := 1
    cycleDuration := 2, durationFactor := 0, baseIncr := 0
    kind := "Common Frequency" }

/-- Evaluation of the shortfall segment: 3 samples requested, tiled length
2, and `createArray` raises the resize ownership error. -/
theorem sqShortTile_eval :
    calculateNumberOfPoints sqShortTile.sampleInterval sqShortTile.duration = 3
    ∧ (squareTiled sqShortTile).length = 2
    ∧ squareCreateArray sqShortTile 0
        = .error "cannot resize this array: it does not own its data" := by
  have hcy : ratTrunc (sqShortTile.cycleDuration / sqShortTile.sampleInterval)
      = 1 := by
    norm_num [sqShortTile, ratTrunc]
  have hnc : squareNumCycles sqShortTile = 2 := by
    norm_num [squareNumCycles, sqShortTile]
  have hn : calculateNumberOfPoints sqShortTile.sampleInterval
      sqShortTile.duration = 3 := by
    norm_num [calculateNumberOfPoints, ratTrunc, sqShortTile]
  have hlen : (squareTiled sqShortTile).length = 2 := by
    rw [squareTiled_length]
    unfold squareTiledLength squareCyclePoints
    rw [hnc, hcy]
    decide
  refine ⟨hn, hlen, ?_⟩
  unfold squareCreateArray
  rw [if_neg (by rw [hcy]; decide), if_neg (by rw [hnc]; decide),
    if_neg (by rw [hn]; decide),
    if_pos ⟨by rw [hnc]; decide, by rw [hn, hlen]; decide⟩]

/-- Evaluation of the even-multiple segment: tiled length 4, 3 samples
requested, and `createArray` raises the resize ownership error. -/
theorem sqCovered_eval :
    squareCreateArray sqCovered 0
      = .error "cannot resize this array: it does not own its data" := by
  have hcy : ratTrunc (sqCovered.cycleDuration / sqCovered.sampleInterval)
      = 2 := by
    norm_num [sqCovered, ratTrunc]
  have hnc : squareNumCycles sqCovered = 2 := by
    norm_num [squareNumCycles, sqCovered, Int.ceil_eq_iff]
  have hn : calculateNumberOfPoints sqCovered.sampleInterval
      sqCovered.duration = 3 := by
    norm_num [calculateNumberOfPoints, ratTrunc, sqCovered]
  have hlen : (squareTiled sqCovered).length = 4 := by
    rw [squareTiled_length]
    unfold squareTiledLength squareCyclePoints
    rw [hnc, hcy]
    decide
  unfold squareCreateArray
  rw [if_neg (by rw [hcy]; decide), if_neg (by rw [hnc]; decide),
    if_neg (by rw [hn]; decide),
    if_pos ⟨by rw [hnc]; decide, by rw [hn, hlen]; decide⟩]

/-- Evaluation of the one-cycle segment: the owning 4-sample cycle is
truncated to the 3 requested samples. -/
theorem sqTruncOk_eval :
    calculateNumberOfPoints sqTruncOk.sampleInterval sqTruncOk.duration = 3
    ∧ squareTiled sqTruncOk = [1000, 1000, -1000, -1000]
    ∧ squareCreateArray sqTruncOk 0 = .ok [1000, 1000, -1000] := by
  have hcy : ratTrunc (sqTruncOk.cycleDuration / sqTruncOk.sampleInterval)
      = 4 := by
    norm_num [sqTruncOk, ratTrunc]
  have hnc : squareNumCycles sqTruncOk = 1 := by
    norm_num [squareNumCycles, sqTruncOk, Int.ceil_eq_iff]
  have hn : calculateNumberOfPoints sqTruncOk.sampleInterval
      sqTruncOk.duration = 3 := by
    norm_num [calculateNumberOfPoints, ratTrunc, sqTruncOk]
  have hone : squareOneCycle sqTruncOk = [1000, 1000, -1000, -1000] := by
    unfold squareOneCycle squareCyclePoints
    rw [hcy]
    norm_num [applyAmplitudeScale, sqTruncOk]
    decide
  have htl : squareTiled sqTruncOk = [1000, 1000, -1000, -1000] := by
    unfold squareTiled
    rw [hnc, hone]
    decide
  refine ⟨hn, htl, ?_⟩
  unfold squareCreateArray
  rw [if_neg (by rw [hcy]; decide), if_neg (by rw [hnc]; decide),
    if_neg (by rw [hn]; decide), if_neg (by rw [hnc]; simp), hn, htl]
  rfl

/-- Evaluation of the exact-tiling segment: two cycles give exactly the 4
requested samples, so the size-preserving resize succeeds. -/
theorem sqExact_eval :
    squareCreateArray sqExact 0 = .ok [1000, -1000, 1000, -1000] := by
  have hcy : ratTrunc (sqExact.cycleDuration / sqExact.sampleInterval)
      = 2 := by
    norm_num [sqExact, ratTrunc]
  have hnc : squareNumCycles sqExact = 2 := by
    norm_num [squareNumCycles, sqExact]
  have hn : calculateNumberOfPoints sqExact.sampleInterval
      sqExact.duration = 4 := by
    norm_num [calculateNumberOfPoints, ratTrunc, sqExact]
  have hone : squareOneCycle sqExact = [1000, -1000] := by
    unfold squareOneCycle squareCyclePoints
    rw [hcy]
    norm_num [applyAmplitudeScale, sqExact]
    decide
  have htl : squareTiled sqExact = [1000, -1000, 1000, -1000] := by
    unfold squareTiled
    rw [hnc, hone]
    decide
  have hlen : (squareTiled sqExact).length = 4 := by
    rw [htl]
    decide
  unfold squareCreateArray
  rw [if_neg (by rw [hcy]; decide), if_neg (by rw [hnc]; decide),
    if_neg (by rw [hn]; decide),
    if_neg (by rw [hn, hlen]; simp), hn, htl]
  rfl

/-- C5 (amended): whenever `createArray` actually returns an array, that
array has exactly `calculateNumberOfPoints(duration)` samples; in every
other case (a non-owning tile resized to a different size) `createArray`
raises and returns no array. -/
theorem squareCreateArray_length (s : SquareSeg) (sweep : ℕ) (l : List ℚ)
    (hvalid : squareSegmentValid s = true) (hsi : 0 < s.sampleInterval)
    (hd : 0 ≤ s.duration) (hok : squareCreateArray s sweep = .ok l) :
    (l.length : ℤ) = calculateNumberOfPoints s.sampleInterval s.duration := by
  obtain ⟨-, hl⟩ := squareCreateArray_ok_eq s sweep l hok
  rw [hl, listResize_length]
  exact Int.toNat_of_nonneg (squareNumPoints_nonneg s hsi hd)

/-- C5 witness: the valid segment `sqExact` returns a 4-sample array and
`trunc(4 / 1) = 4`. -/
theorem squareCreateArray_length_witness :
    (squareSegmentValid sqExact = true ∧ (0:ℚ) < sqExact.sampleInterval
      ∧ (0:ℚ) ≤ sqExact.duration
      ∧ squareCreateArray sqExact 0 = .ok [1000, -1000, 1000, -1000])
    ∧ (([1000, -1000, 1000, -1000] : List ℚ).length : ℤ)
        = calculateNumberOfPoints sqExact.sampleInterval sqExact.duration :=
  ⟨⟨by decide, by norm_num [sqExact], by norm_num [sqExact], sqExact_eval⟩,
   squareCreateArray_length sqExact 0 [1000, -1000, 1000, -1000] (by decide)
     (by norm_num [sqExact]) (by norm_num [sqExact]) sqExact_eval⟩

/-- C5 counterexample: `sqCovered` passes construction validation, yet
`createArray` raises the resize ownership error and returns no array at
all, so no returned array of length `sampleCount(duration)` exists for it
(the claim's universal reading fails). -/
theorem squareCreateArray_raises_cx :
    squareSegmentValid sqCovered = true
    ∧ squareCreateArray sqCovered 0
        = .error "cannot resize this array: it does not own its data" :=
  ⟨by decide, sqCovered_eval⟩

/-- C6: the one cycle synthesized by `SquareSegment.createArray` consists of
`cyclePoints // 2` samples of `applyAmplitudeScale(posAmp)` followed by the
remaining `cyclePoints - cyclePoints // 2` samples of
`applyAmplitudeScale(-posAmp)`, and the `negAmp` field has no effect on the
synthesized array. -/
theorem squareOneCycle_halves (s : SquareSeg) (q : ℚ) (sweep : ℕ) :
    (squareOneCycle s).take (squareCyclePoints s / 2)
      = List.replicate (squareCyclePoints s / 2)
          (applyAmplitudeScale s.amplitudeScale s.posAmp)
    ∧ (squareOneCycle s).drop (squareCyclePoints s / 2)
      = List.replicate (squareCyclePoints s - squareCyclePoints s / 2)
          (applyAmplitudeScale s.amplitudeScale (-s.posAmp))
    ∧ squareCreateArray { s with negAmp := q } sweep = squareCreateArray s sweep := by
  refine ⟨?_, ?_, rfl⟩
  · exact List.take_left' (List.length_replicate _ _)
  · exact List.drop_left' (List.length_replicate _ _)

/-- C10 counterexample: `sqShortTile` is valid and its tiled array is
shorter than `numPoints`, yet `createArray` does not return the zero-padded
array: the resize raises on the non-owning tile view. -/
theorem squareCreateArray_no_pad_cx :
    squareSegmentValid sqShortTile = true
    ∧ (squareTiled sqShortTile).length
        < (calculateNumberOfPoints sqShortTile.sampleInterval
            sqShortTile.duration).toNat
    ∧ squareCreateArray sqShortTile 0
        ≠ .ok (listResize (squareTiled sqShortTile)
            (calculateNumberOfPoints sqShortTile.sampleInterval
              sqShortTile.duration).toNat) := by
  obtain ⟨hn, hlen, herr⟩ := sqShortTile_eval
  refine ⟨by decide, by rw [hn, hlen]; decide, ?_⟩
  rw [herr]
  simp

/-- C10 (amended): whenever the tiled array of a valid Square segment is
shorter than the requested `numPoints`, `numCycles` cannot be 1, so the
tile is a non-owning view and the in-place `resize` raises
`ValueError: cannot resize this array: it does not own its data`; no
zero-filled array is ever produced. -/
theorem squareCreateArray_shortfall_raises (s : SquareSeg) (sweep : ℕ)
    (hvalid : squareSegmentValid s = true) (hsi : 0 < s.sampleInterval)
    (hd : 0 ≤ s.duration)
    (h : (squareTiled s).length
      < (calculateNumberOfPoints s.sampleInterval s.duration).toNat) :
    squareCreateArray s sweep
      = .error "cannot resize this array: it does not own its data" := by
  have hc := squareValid_cycle_pos s hvalid
  have hcyc0 : ¬ ratTrunc (s.cycleDuration / s.sampleInterval) < 0 := by
    rw [ratTrunc_of_nonneg _ (div_nonneg hc.le hsi.le)]
    exact not_lt.mpr (Int.floor_nonneg.mpr (div_nonneg hc.le hsi.le))
  have hnc0 : ¬ squareNumCycles s < 0 :=
    not_lt.mpr (Int.ceil_nonneg (div_nonneg hd hc.le))
  have hn0 : ¬ calculateNumberOfPoints s.sampleInterval s.duration < 0 :=
    not_lt.mpr (squareNumPoints_nonneg s hsi hd)
  have hne1 : squareNumCycles s ≠ 1 := by
    intro h1
    have := squareNumCycles_eq_one_covers s hsi hc hd h1
    omega
  unfold squareCreateArray
  rw [if_neg hcyc0, if_neg hnc0, if_neg hn0, if_pos ⟨hne1, by omega⟩]

/-- C10 witness: at `sqShortTile` the tiled array holds 2 samples while 3
are requested, and `createArray` raises the ownership error. -/
theorem squareCreateArray_shortfall_raises_witness :
    (squareSegmentValid sqShortTile = true
      ∧ (0:ℚ) < sqShortTile.sampleInterval ∧ (0:ℚ) ≤ sqShortTile.duration
      ∧ (squareTiled sqShortTile).length
          < (calculateNumberOfPoints sqShortTile.sampleInterval
              sqShortTile.duration).toNat)
    ∧ squareCreateArray sqShortTile 0
        = .error "cannot resize this array: it does not own its data" :=
  ⟨⟨by decide, by norm_num [sqShortTile], by norm_num [sqShortTile],
    by rw [sqShortTile_eval.1, sqShortTile_eval.2.1]; decide⟩,
   squareCreateArray_shortfall_raises sqShortTile 0 (by decide)
     (by norm_num [sqShortTile]) (by norm_num [sqShortTile])
     (by rw [sqShortTile_eval.1, sqShortTile_eval.2.1]; decide)⟩

/-- C1 counterexample: `sqShortTile` passes construction validation
(`cycleDuration = 3 > 0`), yet with `sampleInterval = 2` and `duration = 6`
one cycle holds only `trunc(3/2) = 1` sample, so
`numCycles * cyclePoints = 2 < n = 3`: the tiled length is not at least
`n`, and the final step neither truncates nor zero-pads but raises. -/
theorem squareTile_shortfall_cx :
    squareSegmentValid sqShortTile = true
    ∧ (squareTiled sqShortTile).length
        < (calculateNumberOfPoints sqShortTile.sampleInterval
            sqShortTile.duration).toNat
    ∧ squareCreateArray sqShortTile 0
        = .error "cannot resize this array: it does not own its data" := by
  obtain ⟨hn, hlen, herr⟩ := sqShortTile_eval
  exact ⟨by decide, by rw [hn, hlen]; decide, herr⟩

/-- C1 (amended): the tiled length can fall short of `n` (then `createArray`
raises instead of producing an array); but whenever `createArray` returns
an array, the tiled length was at least `n` and the final step only
truncated, never zero-padded. -/
theorem squareCreateArray_truncates (s : SquareSeg) (sweep : ℕ) (l : List ℚ)
    (hvalid : squareSegmentValid s = true) (hsi : 0 < s.sampleInterval)
    (hd : 0 ≤ s.duration) (hok : squareCreateArray s sweep = .ok l) :
    (calculateNumberOfPoints s.sampleInterval s.duration).toNat
      ≤ (squareTiled s).length
    ∧ l = (squareTiled s).take
        (calculateNumberOfPoints s.sampleInterval s.duration).toNat := by
  obtain ⟨hcase, hl⟩ := squareCreateArray_ok_eq s sweep l hok
  have hle : (calculateNumberOfPoints s.sampleInterval s.duration).toNat
      ≤ (squareTiled s).length := by
    rcases hcase with h1 | heq
    · exact squareNumCycles_eq_one_covers s hsi
        (squareValid_cycle_pos s hvalid) hd h1
    · omega
  refine ⟨hle, ?_⟩
  rw [hl]
  unfold listResize
  rw [Nat.sub_eq_zero_of_le hle, List.replicate_zero, List.append_nil]

/-- C1 witness: for `sqTruncOk` (one owning cycle of 4 samples, 3
requested) `createArray` returns the cycle truncated to its first 3
samples. -/
theorem squareCreateArray_truncates_witness :
    (squareSegmentValid sqTruncOk = true ∧ (0:ℚ) < sqTruncOk.sampleInterval
      ∧ (0:ℚ) ≤ sqTruncOk.duration
      ∧ squareCreateArray sqTruncOk 0 = .ok [1000, 1000, -1000])
    ∧ ((calculateNumberOfPoints sqTruncOk.sampleInterval
          sqTruncOk.duration).toNat ≤ (squareTiled sqTruncOk).length
        ∧ [1000, 1000, -1000] = (squareTiled sqTruncOk).take
            (calculateNumberOfPoints sqTruncOk.sampleInterval
              sqTruncOk.duration).toNat) :=
  ⟨⟨by decide, by norm_num [sqTruncOk], by norm_num [sqTruncOk],
    sqTruncOk_eval.2.2⟩,
   squareCreateArray_truncates sqTruncOk 0 [1000, 1000, -1000] (by decide)
     (by norm_num [sqTruncOk]) (by norm_num [sqTruncOk]) sqTruncOk_eval.2.2⟩

/-- C9: no `createArray` implementation assigns to any instance field, so
the segment state after a call equals the state before, and in particular
two successive `createArray(3)` calls on the same Constant segment (the
second running on the state left by the first) return identical arrays. -/
theorem createArray_pure :
    (∀ (g : AnySeg) (sweepNo : ℕ), createArrayStateAfter g sweepNo = g)
    ∧ ∀ (s : ConstantSeg),
        (constantCreateArrayS ((constantCreateArrayS s 3).2) 3).1
          = (constantCreateArrayS s 3).1 := by
  constructor
  · intro g sweepNo
    cases g <;> rfl
  · intro s
    rfl

/-- The linspace model always produces the requested number of samples. -/
theorem linspaceQ_length (a b : ℚ) (n : ℕ) : (linspaceQ a b n).length = n := by
  by_cases h0 : n = 0
  · simp [linspaceQ, h0]
  · by_cases h1 : n = 1
    · simp [linspaceQ, h0, h1]
    · simp [linspaceQ, h0, h1]

/-- Sample `i` of an at-least-two-point linspace. -/
theorem linspaceQ_getElem (a b : ℚ) (n i : ℕ) (h2 : 2 ≤ n) (hi : i < n) :
    (linspaceQ a b n)[i]! = a + (b - a) * i / ((n : ℚ) - 1) := by
  unfold linspaceQ
  rw [if_neg (by omega), if_neg (by omega)]
  rw [getElem!_pos _ _ (by simpa using hi)]
  simp [List.getElem_map]

/-- C7 (amended): when stepping succeeds with numeric (non-NaN) values and
the computed sample count is nonnegative, `RampSegment.createArray` returns
exactly the `n`-point linspace from 0 to the stepped, scaled amplitude:
`n` samples, evenly spaced (`sample i = amplitude * i / (n-1)`), starting
at 0 and ending at the amplitude when `n ≥ 2`, and the single sample `[0]`
when `n = 1`.  (With an active LogInc amplitude delta the stepped amplitude
is NaN and every sample, the first included, is NaN; with a negative sample
count `np.linspace` raises.) -/
theorem rampCreateArray_linspace (s : RampSeg) (sweep : ℕ) (d a : ℚ) (n : ℕ)
    (h : doStepping s.xDelta s.yDelta s.amplitudeScale s.duration s.amplitude
      sweep = .ok (.num d, .num a))
    (hn0 : 0 ≤ calculateNumberOfPoints s.sampleInterval d)
    (hn : n = (calculateNumberOfPoints s.sampleInterval d).toNat) :
    rampCreateArray s sweep = .ok ((linspaceQ 0 a n).map FVal.num)
    ∧ (linspaceQ 0 a n).length = n
    ∧ (2 ≤ n → (linspaceQ 0 a n)[0]! = 0 ∧ (linspaceQ 0 a n)[n-1]! = a
        ∧ ∀ i, i < n → (linspaceQ 0 a n)[i]! = a * i / ((n : ℚ) - 1))
    ∧ (n = 1 → linspaceQ 0 a n = [0]) := by
  have hcast : ∀ i : ℕ, i < n → 2 ≤ n →
      (linspaceQ 0 a n)[i]! = a * i / ((n : ℚ) - 1) := by
    intro i hi h2
    rw [linspaceQ_getElem 0 a n i h2 hi]
    ring
  refine ⟨?_, linspaceQ_length 0 a n, fun h2 => ⟨?_, ?_, fun i hi => hcast i hi h2⟩,
    fun h1 => ?_⟩
  · unfold rampCreateArray
    rw [h]
    unfold calculateNumberOfPoints at hn0 hn
    simp only [calculateNumberOfPointsF, FVal.divQ, truncF, linspaceF, hn,
      Bind.bind, Except.bind]
    rw [if_neg (not_lt.mpr hn0)]
  · rw [hcast 0 (by omega) h2]
    simp
  · rw [hcast (n-1) (by omega) h2]
    have hne : ((n : ℚ)) - 1 ≠ 0 := by
      have : (2 : ℚ) ≤ (n : ℚ) := by exact_mod_cast h2
      linarith
    rw [show (((n-1 : ℕ)) : ℚ) = ((n : ℚ)) - 1 by push_cast [Nat.cast_sub (by omega : 1 ≤ n)]; ring]
    field_simp
  · subst h1
    rfl

/-- Ramp segment with inactive deltas, `duration = 3`, `sampleInterval = 1`,
`amplitude = 2`. -/
def rampWit : RampSeg :=
  { xDelta := inactiveDelta, yDelta := inactiveDelta, duration := 3
    sampleInterval := 1, amplitudeScale := 1000, amplitude := 2 }

/-- Ramp segment whose amplitude delta is an active `"LogInc"` stepping
specification (factor 2), so stepping yields a NaN amplitude. -/
def rampNan : RampSeg :=
  { xDelta := inactiveDelta
    yDelta := { mode := "LogInc", factor := 2, inc := 0 }
    duration := 3, sampleInterval := 1, amplitudeScale := 1000
    amplitude := 2 }

/-- C7 witness: for `rampWit` at sweep 2, stepping yields duration 3 and
scaled amplitude 2000, `n = 3`, and `createArray` is the three-point
linspace from 0 to 2000. -/
theorem rampCreateArray_linspace_witness :
    (doStepping rampWit.xDelta rampWit.yDelta rampWit.amplitudeScale
        rampWit.duration rampWit.amplitude 2 = .ok (.num 3, .num 2000)
      ∧ 0 ≤ calculateNumberOfPoints rampWit.sampleInterval 3
      ∧ 3 = (calculateNumberOfPoints rampWit.sampleInterval 3).toNat)
    ∧ (rampCreateArray rampWit 2 = .ok ((linspaceQ 0 2000 3).map FVal.num)
        ∧ (linspaceQ 0 2000 3).length = 3
        ∧ (2 ≤ 3 → (linspaceQ 0 2000 3)[0]! = 0
            ∧ (linspaceQ 0 2000 3)[3-1]! = 2000
            ∧ ∀ i : ℕ, i < 3 →
                (linspaceQ 0 2000 3)[i]! = 2000 * (i : ℚ) / (((3:ℕ) : ℚ) - 1))
        ∧ (3 = 1 → linspaceQ 0 2000 3 = [0])) :=
  ⟨⟨by norm_num [doStepping, applyDelta, hasDelta, inactiveDelta, rampWit,
      applyAmplitudeScaleF, FVal.mul, Bind.bind, Except.bind],
    by norm_num [calculateNumberOfPoints, ratTrunc, rampWit],
    by norm_num [calculateNumberOfPoints, ratTrunc, rampWit]; decide⟩,
   rampCreateArray_linspace rampWit 2 3 2000 3
     (by norm_num [doStepping, applyDelta, hasDelta, inactiveDelta, rampWit,
        applyAmplitudeScaleF, FVal.mul, Bind.bind, Except.bind])
     (by norm_num [calculateNumberOfPoints, ratTrunc, rampWit])
     (by norm_num [calculateNumberOfPoints, ratTrunc, rampWit]; decide)⟩

/-- C7 counterexample: `rampNan` is a perfectly constructible Ramp segment,
but at sweep 0 its stepped amplitude is NaN, so `createArray` returns three
NaN samples and the first sample is not 0.0. -/
theorem rampCreateArray_nan_cx :
    rampCreateArray rampNan 0 = .ok [FVal.nan, FVal.nan, FVal.nan]
    ∧ FVal.nan ≠ FVal.num 0 := by
  constructor
  · have hne : ("LogInc" : String) ≠ "Inc" := by decide
    norm_num [rampCreateArray, doStepping, applyDelta, hasDelta, inactiveDelta,
      rampNan, applyAmplitudeScaleF, FVal.mul, Bind.bind, Except.bind,
      calculateNumberOfPointsF, FVal.divQ, truncF, ratTrunc, linspaceF,
      List.replicate, hne]
  · decide

/-- Derivative of the linear chirp phase at any point. -/
theorem chirpPhaseLinear_hasDerivAt (f0 f1 t1 x : ℝ) :
    HasDerivAt (chirpPhaseLinear f0 f1 t1)
      (2 * Real.pi * (f0 + (f1 - f0) / t1 * x)) x := by
  have h1 : HasDerivAt (fun t : ℝ => f0 * t) f0 x := by
    simpa using (hasDerivAt_id x).const_mul f0
  have h2 : HasDerivAt (fun t : ℝ => t * t) (x + x) x := by
    simpa using (hasDerivAt_id x).mul (hasDerivAt_id x)
  have h3 := (h1.add ((h2.const_mul ((f1 - f0) / t1)).div_const 2)).const_mul
    (2 * Real.pi)
  have hfun : chirpPhaseLinear f0 f1 t1
      = fun t => 2 * Real.pi * (f0 * t + (f1 - f0) / t1 * (t * t) / 2) := by
    funext t
    simp only [chirpPhaseLinear]
    ring
  rw [hfun]
  convert h3 using 1
  ring

/-- Derivative of the logarithmic chirp phase, distinct-frequency branch. -/
theorem chirpPhaseLog_hasDerivAt (f0 f1 t1 x : ℝ) (hff : 0 < f0 * f1)
    (ht1 : t1 ≠ 0) (hne : f0 ≠ f1) :
    HasDerivAt (chirpPhaseLogarithmic f0 f1 t1)
      (2 * Real.pi * f0 * Real.exp (x / t1 * Real.log (f1 / f0))) x := by
  have hf0 : f0 ≠ 0 := by
    rintro rfl
    simp at hff
  have hb : 0 < f1 / f0 := by
    have h2 : f1 / f0 = (f0 * f1) / (f0 ^ 2) := by
      field_simp
      ring
    rw [h2]
    exact div_pos hff (by positivity)
  have hb1 : f1 / f0 ≠ 1 := by
    intro h
    exact hne ((div_eq_one_iff_eq hf0).mp h).symm
  have hL : Real.log (f1 / f0) ≠ 0 := by
    intro h
    rcases Real.log_eq_zero.mp h with h0 | h1 | hm1
    · exact absurd h0 (ne_of_gt hb)
    · exact hb1 h1
    · linarith
  set L := Real.log (f1 / f0) with hLdef
  have hexp : HasDerivAt (fun t : ℝ => Real.exp (t / t1 * L))
      (Real.exp (x / t1 * L) * (1 / t1 * L)) x := by
    have hin : HasDerivAt (fun t : ℝ => t / t1 * L) (1 / t1 * L) x := by
      simpa using ((hasDerivAt_id x).div_const t1).mul_const L
    exact hin.exp
  have h3 := (hexp.sub_const 1).const_mul (2 * Real.pi * (t1 / L) * f0)
  have hfun : chirpPhaseLogarithmic f0 f1 t1
      = fun t => 2 * Real.pi * (t1 / L) * f0 * (Real.exp (t / t1 * L) - 1) := by
    funext t
    simp only [chirpPhaseLogarithmic, if_neg hne]
    rw [Real.rpow_def_of_pos hb, mul_comm L (t / t1)]
  rw [hfun]
  convert h3 using 1
  field_simp
  ring

/-- The instantaneous frequency of either chirp kind is `f0` at `t = 0` and
`f1` at `t = t1`. -/
theorem chirpPhase_endpoint_freqs (k : String) (f0 f1 t1 : ℝ)
    (hk : k = "Linear" ∨ k = "Exponential") (ht1 : t1 ≠ 0)
    (hff : k = "Exponential" → 0 < f0 * f1) :
    instantaneousFrequency (chirpPhase k f0 f1 t1) 0 = f0
    ∧ instantaneousFrequency (chirpPhase k f0 f1 t1) t1 = f1 := by
  have hpi : (2 : ℝ) * Real.pi ≠ 0 := by
    have := Real.pi_ne_zero
    positivity
  rcases hk with hk | hk
  · have hphase : chirpPhase k f0 f1 t1 = chirpPhaseLinear f0 f1 t1 := by
      rw [hk]
      simp [chirpPhase]
    constructor
    · rw [instantaneousFrequency, hphase,
        (chirpPhaseLinear_hasDerivAt f0 f1 t1 0).deriv]
      field_simp
    · rw [instantaneousFrequency, hphase,
        (chirpPhaseLinear_hasDerivAt f0 f1 t1 t1).deriv]
      field_simp
  · have hff' : 0 < f0 * f1 := hff hk
    have hphase : chirpPhase k f0 f1 t1 = chirpPhaseLogarithmic f0 f1 t1 := by
      rw [hk]
      simp [chirpPhase]
    by_cases heq : f0 = f1
    · have hd : ∀ x : ℝ, HasDerivAt (chirpPhaseLogarithmic f0 f1 t1)
          (2 * Real.pi * f0) x := by
        intro x
        have hfun : chirpPhaseLogarithmic f0 f1 t1
            = fun t => (2 * Real.pi * f0) * t := by
          funext t
          simp only [chirpPhaseLogarithmic, if_pos heq]
        rw [hfun]
        simpa using (hasDerivAt_id x).const_mul (2 * Real.pi * f0)
      constructor
      · rw [instantaneousFrequency, hphase, (hd 0).deriv]
        field_simp
      · rw [instantaneousFrequency, hphase, (hd t1).deriv, ← heq]
        field_simp
    · have hf0 : f0 ≠ 0 := by
        rintro rfl
        simp at hff'
      have hb : 0 < f1 / f0 := by
        have h2 : f1 / f0 = (f0 * f1) / (f0 ^ 2) := by
          field_simp
          ring
        rw [h2]
        exact div_pos hff' (by positivity)
      constructor
      · rw [instantaneousFrequency, hphase,
          (chirpPhaseLog_hasDerivAt f0 f1 t1 0 hff' ht1 heq).deriv]
        simp [Real.exp_zero]
        field_simp
      · rw [instantaneousFrequency, hphase,
          (chirpPhaseLog_hasDerivAt f0 f1 t1 t1 hff' ht1 heq).deriv]
        rw [div_self ht1, one_mul, Real.exp_log hb]
        field_simp
        ring

/-- C8: for every Chirp segment that passes construction validation (kind
`"Linear"` or `"Exponential"`) and a nonzero sweep duration `t1`, the
instantaneous frequency of the synthesized waveform's phase is `startFreq`
at `t = 0` and `endFreq` at `t = t1`; for the `"Exponential"` kind the
start and end frequencies are additionally assumed to have the same sign,
the precondition scipy itself enforces for its logarithmic method (the
`"Linear"` kind needs no such restriction). -/
theorem chirp_instantaneous_frequency_endpoints (s : ChirpSeg) (t1 : ℝ)
    (hkind : s.kind = "Linear" ∨ s.kind = "Exponential") (ht1 : t1 ≠ 0)
    (hff : s.kind = "Exponential" → 0 < ((s.startFreq : ℝ)) * ((s.endFreq : ℝ))) :
    instantaneousFrequency
        (chirpPhase s.kind ((s.startFreq : ℝ)) ((s.endFreq : ℝ)) t1) 0
      = ((s.startFreq : ℝ))
    ∧ instantaneousFrequency
        (chirpPhase s.kind ((s.startFreq : ℝ)) ((s.endFreq : ℝ)) t1) t1
      = ((s.endFreq : ℝ)) :=
  chirpPhase_endpoint_freqs s.kind _ _ t1 hkind ht1 hff

/-- Chirp segment sweeping linearly from 0 Hz to 2 Hz over 1 s: a valid
segment with `startFreq * endFreq = 0`, which scipy accepts for the linear
method. -/
def chirpWitLinear0 : ChirpSeg :=
  { xDelta := inactiveDelta, yDelta := inactiveDelta, duration := 1
    sampleInterval := 1, amplitudeScale := 1000, amplitude := 1
    startFreq := 0, endFreq := 2, kind := "Linear" }

/-- C8 witness: the linear 0 Hz to 2 Hz chirp over 1 s (a segment excluded
by any same-sign requirement) has instantaneous frequency 0 Hz at the start
and 2 Hz at the end. -/
theorem chirp_instantaneous_frequency_endpoints_witness :
    ((chirpWitLinear0.kind = "Linear" ∨ chirpWitLinear0.kind = "Exponential")
      ∧ (1 : ℝ) ≠ 0
      ∧ (chirpWitLinear0.kind = "Exponential" →
          (0 : ℝ) < ((chirpWitLinear0.startFreq : ℝ))
            * ((chirpWitLinear0.endFreq : ℝ))))
    ∧ (instantaneousFrequency
          (chirpPhase chirpWitLinear0.kind ((chirpWitLinear0.startFreq : ℝ))
            ((chirpWitLinear0.endFreq : ℝ)) 1) 0
        = ((chirpWitLinear0.startFreq : ℝ))
      ∧ instantaneousFrequency
          (chirpPhase chirpWitLinear0.kind ((chirpWitLinear0.startFreq : ℝ))
            ((chirpWitLinear0.endFreq : ℝ)) 1) 1
        = ((chirpWitLinear0.endFreq : ℝ))) :=
  ⟨⟨Or.inl rfl, by norm_num, fun h => absurd h (by decide)⟩,
   chirp_instantaneous_frequency_endpoints chirpWitLinear0 1 (Or.inl rfl)
     (by norm_num) (fun h => absurd h (by decide))⟩
